import Mathlib

/-!
Verification development for the demo-content repository.

The definitions below are shallow embeddings of the repository's code:

* `ContentLifecycleManager` and its operations (`trackResource`,
  `generateCleanupPlan`, `executeCleanup`) embed the POC content lifecycle
  manager (`src/unnamed/part_000`).  JavaScript `Map` objects are embedded as
  insertion-ordered association lists; `Date.now()` is passed in explicitly as
  a natural number; `throw new Error(msg)` is embedded as an error value that
  leaves the state unchanged; `saveTracking()` is embedded as copying the
  in-memory session map into a `saved` field that mirrors the persisted file.

* `forceOneDriveProvisioning`, `initiateAuthFlow` / `handleCallback` and
  `exchangeCodeForTokens` embed the corresponding methods of
  `MicrosoftAuthService` (`src/dashboard/src/lib/auth/microsoft-auth.ts`).
  Network responses are supplied by explicit environments, and thrown
  exceptions are embedded with `Except`.
-/

/-- Looks up a key in an insertion-ordered association list; embeds
`Map.prototype.get`. -/
def lookupA {α : Type} (k : String) : List (String × α) → Option α
  | [] => none
  | (k', v) :: rest => if k' = k then some v else lookupA k rest

/-- Replaces the value of an existing key in place, or appends the binding at
the end; embeds `Map.prototype.set` (insertion order is preserved for existing
keys, new keys go last). -/
def setEntry {α : Type} : List (String × α) → String → α → List (String × α)
  | [], k, v => [(k, v)]
  | (k', v') :: rest, k, v =>
    if k' = k then (k, v) :: rest else (k', v') :: setEntry rest k v

/-- Session status of a `DemoSession` (`'active' | 'completed' | 'cleaning' |
'cleaned'` in the source). -/
inductive SessionStatus where
  | active
  | completed
  | cleaning
  | cleaned
  deriving DecidableEq, Repr

/-- Content record tracked for one created resource; embeds the
`ContentRecord` typedef of `src/unnamed/part_000`.  `createdAt` (an ISO
timestamp in the source) and the timestamp inside `id` are both embedded as
the millisecond count `Date.now()` passed to `trackResource`.  The untyped
`metadata` object is embedded as a key/value list. -/
structure ContentRecord where
  id : String
  tenantId : String
  demoSessionId : String
  resourceType : String
  resourceId : String
  parentResourceId : Option String
  graphApiEndpoint : String
  displayName : String
  createdAt : Nat
  metadata : List (String × String)
  deriving DecidableEq, Repr

/-- Demo session; embeds the `DemoSession` typedef of
`src/unnamed/part_000`. -/
structure DemoSession where
  sessionId : String
  tenantId : String
  startedAt : Nat
  status : SessionStatus
  totalResources : Nat
  cleanedResources : Nat
  resources : List ContentRecord
  deriving DecidableEq, Repr

/-- State of a `ContentLifecycleManager`: the in-memory session map
(`this.sessions`) and the persisted tracking file contents (`saved`, the
snapshot written by the last `saveTracking()` call). -/
structure ContentLifecycleManager where
  sessions : List (String × DemoSession)
  saved : List (String × DemoSession)
  deriving DecidableEq, Repr

/-- Record constructed by `trackResource` (lines 102-113 of
`src/unnamed/part_000`): the id is the string
`resourceType + "-" + resourceId + "-" + Date.now()`. -/
def makeRecord (tenantId sessionId resourceType resourceId displayName
    graphApiEndpoint : String) (parentResourceId : Option String)
    (metadata : Option (List (String × String))) (now : Nat) : ContentRecord :=
  { id := resourceType ++ "-" ++ resourceId ++ "-" ++ Nat.repr now
    tenantId := tenantId
    demoSessionId := sessionId
    resourceType := resourceType
    resourceId := resourceId
    parentResourceId := parentResourceId
    graphApiEndpoint := graphApiEndpoint
    displayName := displayName
    createdAt := now
    metadata := metadata.getD [] }

/-- Embeds `ContentLifecycleManager.trackResource`.  Returns the error message
of the thrown `Error` (if any) together with the resulting manager state; the
source throws before any mutation when the session is unknown, so in that case
the state is returned unchanged.  On success the new record is appended,
`totalResources` is recomputed as the record count, and `saveTracking()`
persists the map. -/
def trackResource (m : ContentLifecycleManager)
    (sessionId resourceType resourceId displayName graphApiEndpoint : String)
    (parentResourceId : Option String)
    (metadata : Option (List (String × String))) (now : Nat) :
    Option String × ContentLifecycleManager :=
  match lookupA sessionId m.sessions with
  | none => (some ("Session " ++ sessionId ++ " not found"), m)
  | some session =>
    let record := makeRecord session.tenantId sessionId resourceType resourceId
      displayName graphApiEndpoint parentResourceId metadata now
    let resources' := session.resources ++ [record]
    let session' := { session with
      resources := resources'
      totalResources := resources'.length }
    let sessions' := setEntry m.sessions sessionId session'
    (none, { sessions := sessions', saved := sessions' })

/-- Fixed cleanup order (line 145 of `src/unnamed/part_000`): most dependent
resource types first. -/
def cleanupOrder : List String :=
  ["file", "email", "chat", "license", "user", "team"]

/-- Initial resource groups: one empty group per type of the fixed cleanup
order (lines 148-150 of `src/unnamed/part_000`). -/
def initGroups : List (String × List ContentRecord) :=
  cleanupOrder.map (fun t => (t, []))

/-- One step of the grouping loop (lines 153-159 of `src/unnamed/part_000`):
a resource of a type without a group gets a fresh group and produces an
"Unknown resource type" warning; then the resource is pushed onto its type's
group. -/
def groupStep (acc : List (String × List ContentRecord) × List String)
    (r : ContentRecord) : List (String × List ContentRecord) × List String :=
  match lookupA r.resourceType acc.1 with
  | some l => (setEntry acc.1 r.resourceType (l ++ [r]), acc.2)
  | none =>
    (acc.1 ++ [(r.resourceType, [r])],
     acc.2 ++ ["Unknown resource type: " ++ r.resourceType])

/-- Cleanup plan returned by `generateCleanupPlan`. -/
structure CleanupPlan where
  order : List String
  resources : List (String × List ContentRecord)
  warnings : List String
  deriving DecidableEq, Repr

/-- Plan construction for a session that was found (lines 141-173 of
`src/unnamed/part_000`). -/
def planForSession (session : DemoSession) : CleanupPlan :=
  let grouped := session.resources.foldl groupStep (initGroups, [])
  let userResources := (lookupA "user" grouped.1).getD []
  let licenseResources := (lookupA "license" grouped.1).getD []
  let warnings :=
    if userResources.length > 0 ∧ licenseResources.length = 0 then
      grouped.2 ++
        ["Users found without tracked licenses - may leave orphaned assignments"]
    else grouped.2
  { order := cleanupOrder, resources := grouped.1, warnings := warnings }

/-- Embeds `ContentLifecycleManager.generateCleanupPlan`; throws (embedded as
`Except.error`) when the session is unknown. -/
def generateCleanupPlan (m : ContentLifecycleManager) (sessionId : String) :
    Except String CleanupPlan :=
  match lookupA sessionId m.sessions with
  | none => Except.error ("Session " ++ sessionId ++ " not found")
  | some session => Except.ok (planForSession session)

/-- Observable event of a cleanup execution: a `saveTracking()` call with the
persisted store, a live deletion attempt, or a dry-run "would delete" log. -/
inductive CleanupEvent where
  | save (store : List (String × DemoSession))
  | delete (resourceType : String) (record : ContentRecord)
  | wouldDelete (resourceType : String) (record : ContentRecord)
  deriving DecidableEq, Repr

/-- Deletion traversal of `executeCleanup` (lines 213-233 of
`src/unnamed/part_000`): iterate the plan's `order`, and within each type its
group in insertion order.  The live Graph DELETE call is commented out in the
source, so the per-item `try/catch` can never fire and `cleanedCount` is
incremented for every item in both modes; the count is therefore the length of
this event list. -/
def cleanupActions (plan : CleanupPlan) (dryRun : Bool) : List CleanupEvent :=
  (plan.order.map (fun t =>
    ((lookupA t plan.resources).getD []).map (fun item =>
      if dryRun then CleanupEvent.wouldDelete t item
      else CleanupEvent.delete t item))).flatten

/-- Embeds `ContentLifecycleManager.executeCleanup`.  Returns the final
manager state together with the ordered list of observable events: the first
`saveTracking()` (status set to `cleaning`), the per-resource deletion /
dry-run events, and the final `saveTracking()` (count and final status
written). -/
def executeCleanup (m : ContentLifecycleManager) (sessionId : String)
    (dryRun : Bool) :
    Except String (ContentLifecycleManager × List CleanupEvent) :=
  match lookupA sessionId m.sessions with
  | none => Except.error ("Session " ++ sessionId ++ " not found")
  | some session =>
    let plan := planForSession session
    let session1 := { session with status := SessionStatus.cleaning }
    let sessions1 := setEntry m.sessions sessionId session1
    let actions := cleanupActions plan dryRun
    let cleanedCount := actions.length
    let session2 := { session1 with
      cleanedResources := cleanedCount
      status := if dryRun then SessionStatus.active else SessionStatus.cleaned }
    let sessions2 := setEntry sessions1 sessionId session2
    Except.ok ({ sessions := sessions2, saved := sessions2 },
      CleanupEvent.save sessions1 :: actions ++ [CleanupEvent.save sessions2])

/-- Outcome of one drive-read attempt inside `forceOneDriveProvisioning`, as
seen by the loop body (lines 311-364 of `microsoft-auth.ts`): a 2xx response,
a 404 whose error message matches the "not set up yet" signature, any other
unsuccessful response (including a 404 with a different message), or a thrown
transport fault. -/
inductive AttemptOutcome where
  | ok
  | notSetupYet
  | otherFail
  | throwErr
  deriving DecidableEq, Repr

/-- Status carried by the `OneDriveProvisioningResult` the function returns:
`READY` (2xx), `NOT_SETUP` (first-attempt 404 signature match),
`PROVISIONING` with code `PROVISIONING_TIMEOUT` (loop exhausted attempts or
wait budget), or `ERROR` with code `ONEDRIVE_ERROR` (a fault reached the outer
catch). -/
inductive ProvStatus where
  | ready
  | notSetup
  | provisioningTimeout
  | errorStatus
  deriving DecidableEq, Repr

/-- Environment of one `forceOneDriveProvisioning` run: the outcome of each
numbered attempt and the elapsed wall-clock seconds observed at the
max-wait-time check of each iteration (line 374 of `microsoft-auth.ts`). -/
structure ProvEnv where
  outcome : Nat → AttemptOutcome
  elapsed : Nat → Nat

/-- Observable result of a run: the returned status, the list of backoff
sleeps performed (in seconds, in order), and the number of attempts made. -/
structure ProvRun where
  status : ProvStatus
  sleeps : List Nat
  attempts : Nat
  deriving DecidableEq, Repr

/-- Backoff before the next retry (line 360 of `microsoft-auth.ts`):
`Math.min(attempt * 10, 30)` seconds. -/
def waitTime (attempt : Nat) : Nat := min (attempt * 10) 30

/-- Retry loop of `forceOneDriveProvisioning` (lines 309-377 of
`microsoft-auth.ts`), with the iteration count supplied as structural fuel
(`fuel = retryAttempts + 1 - attempt`, so fuel `0` means the `for` guard
failed and the post-loop timeout result is produced).  Per iteration: a 2xx
returns `READY`; a matching 404 on attempt 1 returns `NOT_SETUP`; a thrown
fault skips the sleep, is rethrown on the final attempt (reaching the outer
catch, `ERROR`), and otherwise falls through to the elapsed-time check; any
other unsuccessful response sleeps `waitTime` when attempts remain and then
reaches the elapsed-time check, which breaks out of the loop (post-loop
timeout result) when the budget is exceeded. -/
def provLoop (env : ProvEnv) (retryAttempts maxWaitTime : Nat) :
    Nat → Nat → ProvRun
  | _, 0 => { status := ProvStatus.provisioningTimeout, sleeps := [], attempts := 0 }
  | attempt, fuel + 1 =>
    match env.outcome attempt with
    | AttemptOutcome.ok =>
      { status := ProvStatus.ready, sleeps := [], attempts := 1 }
    | AttemptOutcome.throwErr =>
      if attempt = retryAttempts then
        { status := ProvStatus.errorStatus, sleeps := [], attempts := 1 }
      else if env.elapsed attempt > maxWaitTime then
        { status := ProvStatus.provisioningTimeout, sleeps := [], attempts := 1 }
      else
        let r := provLoop env retryAttempts maxWaitTime (attempt + 1) fuel
        { status := r.status, sleeps := r.sleeps, attempts := r.attempts + 1 }
    | AttemptOutcome.notSetupYet =>
      if attempt = 1 then
        { status := ProvStatus.notSetup, sleeps := [], attempts := 1 }
      else
        let ws := if attempt < retryAttempts then [waitTime attempt] else []
        if env.elapsed attempt > maxWaitTime then
          { status := ProvStatus.provisioningTimeout, sleeps := ws, attempts := 1 }
        else
          let r := provLoop env retryAttempts maxWaitTime (attempt + 1) fuel
          { status := r.status, sleeps := ws ++ r.sleeps, attempts := r.attempts + 1 }
    | AttemptOutcome.otherFail =>
      let ws := if attempt < retryAttempts then [waitTime attempt] else []
      if env.elapsed attempt > maxWaitTime then
        { status := ProvStatus.provisioningTimeout, sleeps := ws, attempts := 1 }
      else
        let r := provLoop env retryAttempts maxWaitTime (attempt + 1) fuel
        { status := r.status, sleeps := ws ++ r.sleeps, attempts := r.attempts + 1 }

/-- Embeds `MicrosoftAuthService.forceOneDriveProvisioning`: run the retry
loop starting at attempt 1 with `retryAttempts` iterations of fuel. -/
def forceOneDriveProvisioning (env : ProvEnv) (retryAttempts maxWaitTime : Nat) :
    ProvRun :=
  provLoop env retryAttempts maxWaitTime 1 retryAttempts

/-- Process-wide auth configuration.  Modelled from the spec: `auth-config.ts`
(`getAuthConfig`, `REQUIRED_SCOPES`) is not part of the provided sources; per
the spec the configuration carries the client identifier, redirect target,
required scopes and the process-wide forced-provisioning default
(`oneDriveProvisioning.forceProvisioning`). -/
structure AuthConfig where
  clientId : String
  redirectUri : String
  requiredScopes : List String
  forceProvisioning : Bool

/-- JSON text of the `stateData` object built at line 43-46 of
`microsoft-auth.ts`, opening brace and first key. -/
def stateJsonHead : List Char := "\x7b\"state\":\"".data

/-- JSON text between the state value and the boolean: closing quote of the
state string, then the `forceOneDriveProvisioning` key. -/
def stateJsonMid : List Char := "\",\"forceOneDriveProvisioning\":".data

/-- Models `JSON.stringify(stateData)` for the two-field object the service
builds: `\x7b"state":"<state>","forceOneDriveProvisioning":<bool>\x7d`. -/
def mkStateJson (state : String) (force : Bool) : String :=
  String.mk (stateJsonHead ++ state.data ++ stateJsonMid ++
    (if force then "true" else "false").data ++ ['\x7d'])

/-- Strips an expected leading character sequence, returning the remainder, or
`none` when the input does not start with it. -/
def stripLead : List Char → List Char → Option (List Char)
  | [], rest => some rest
  | _ :: _, [] => none
  | p :: ps, c :: cs => if c = p then stripLead ps cs else none

/-- Result of `JSON.parse` on a state value, restricted to the fields the
callback reads: the echoed random `state` and the optional
`forceOneDriveProvisioning` flag. -/
structure StateData where
  state : String
  forceOneDriveProvisioning : Option Bool
  deriving DecidableEq, Repr

/-- Models `JSON.parse(state)` as used at line 78 of `microsoft-auth.ts`,
restricted to the state payloads this service itself produces: it recognizes
exactly the strings of the shape emitted by `mkStateJson` and fails (the
embedded image of `JSON.parse` throwing) on anything else — in particular on
a bare UUID, which is not valid JSON. -/
def parseStateJson (s : String) : Option StateData :=
  match stripLead stateJsonHead s.data with
  | none => none
  | some rest =>
    let stateChars := rest.takeWhile (fun c => c != '"')
    match stripLead stateJsonMid (rest.dropWhile (fun c => c != '"')) with
    | none => none
    | some rest2 =>
      if rest2 = "true".data ++ ['\x7d'] then
        some { state := String.mk stateChars, forceOneDriveProvisioning := some true }
      else if rest2 = "false".data ++ ['\x7d'] then
        some { state := String.mk stateChars, forceOneDriveProvisioning := some false }
      else none

/-- Value returned by `initiateAuthFlow`: the authorization URL is embedded as
its (pre-URL-encoding) query parameter list, and `state` / `codeVerifier` are
the fields of the returned object (lines 59-63 of `microsoft-auth.ts`).  The
fresh random values produced by `crypto.randomUUID()` are passed in as the
`genState` and `genVerifier` arguments. -/
structure AuthRequest where
  authUrlParams : List (String × String)
  state : String
  codeVerifier : String
  deriving DecidableEq, Repr

/-- Embeds `MicrosoftAuthService.initiateAuthFlow` (lines 32-64 of
`microsoft-auth.ts`).  Note the `state` query parameter of the authorization
URL carries the JSON-serialized `stateData`, while the returned `state` field
is the bare random UUID. -/
def initiateAuthFlow (config : AuthConfig) (genState genVerifier : String)
    (forceOneDriveProvisioning : Option Bool) (customScopes : Option (List String)) :
    AuthRequest :=
  let scopes := config.requiredScopes ++ customScopes.getD []
  let stateData := mkStateJson genState
    (forceOneDriveProvisioning.getD config.forceProvisioning)
  { authUrlParams :=
      [("client_id", config.clientId),
       ("response_type", "code"),
       ("redirect_uri", config.redirectUri),
       ("scope", String.intercalate " " scopes),
       ("state", stateData),
       ("code_challenge", genVerifier),
       ("code_challenge_method", "plain"),
       ("prompt", "consent")]
    state := genState
    codeVerifier := genVerifier }

/-- Result of the state-parsing and preference-resolution stage of
`handleCallback`: either the outer catch converted a fault into a failure with
the given error code, or the pipeline proceeds with the resolved
forced-provisioning preference. -/
inductive CallbackStage where
  | failure (errorCode : String)
  | proceeds (resolvedForce : Bool)
  deriving DecidableEq, Repr

/-- Embeds `MicrosoftAuthService.handleCallback` (lines 70-142 of
`microsoft-auth.ts`) through its first stage: `JSON.parse(state)` — whose
throw is caught by the outer catch and converted into code `CALLBACK_ERROR` —
followed by the resolution chain `options?.forceOneDriveProvisioning ??
stateData.forceOneDriveProvisioning ?? config default`.  The later stages
(token exchange, enrichment, provisioning, audit) do not change the resolved
preference and are elided; `proceeds b` means the pipeline continues with
resolved preference `b`. -/
def handleCallback (config : AuthConfig) (state : String)
    (optionsForce : Option Bool) : CallbackStage :=
  match parseStateJson state with
  | none => CallbackStage.failure "CALLBACK_ERROR"
  | some stateData =>
    CallbackStage.proceeds
      (optionsForce.getD
        (stateData.forceOneDriveProvisioning.getD config.forceProvisioning))

/-- Token set built on a successful exchange (lines 180-186 of
`microsoft-auth.ts`).  Fields that may be absent from the provider's JSON are
kept as options (JavaScript `undefined` is stored as-is in the object). -/
structure TokenSet where
  accessToken : Option String
  refreshToken : Option String
  idToken : Option String
  expiresAt : Nat
  scope : List String
  deriving DecidableEq, Repr

/-- Error member of a provider response body (`errorData.error`), with its
possibly-absent `code` and `message` fields. -/
structure TokenErrorInfo where
  code : Option String
  message : Option String
  deriving DecidableEq, Repr

/-- Parsed JSON body of a token-endpoint response, restricted to the members
`exchangeCodeForTokens` reads.  `errorMember = none` embeds a JSON value with
no `error` member, so that reading `errorData.error.code` throws a
`TypeError`; `scope = none` embeds a body without a `scope` string, so that
`tokenData.scope.split(' ')` throws. -/
structure TokenBody where
  errorMember : Option TokenErrorInfo
  accessToken : Option String
  refreshToken : Option String
  idToken : Option String
  expiresIn : Nat
  scope : Option String
  deriving DecidableEq, Repr

/-- Token-endpoint response: HTTP success flag and the result of
`response.json()`, which is `Except.error ()` when the body is not valid
JSON (the parse throws). -/
structure TokenResponse where
  ok : Bool
  json : Except Unit TokenBody

/-- Environment of one `exchangeCodeForTokens` call: the fetch either throws
a transport fault (`Except.error ()`) or yields a response. -/
structure TokenEnv where
  response : Except Unit TokenResponse

/-- Result type of the auth-service operations (`AuthResult`): success with a
token set, or a failure whose `error.code` / `error.message` may be
`undefined` (embedded as `none`). -/
inductive AuthResult where
  | success (tokens : TokenSet)
  | failure (code : Option String) (message : Option String)
  deriving DecidableEq, Repr

/-- Body of the `try` block of `exchangeCodeForTokens` (lines 149-194 of
`microsoft-auth.ts`); `Except.error ()` is a fault propagating to the
function's `catch`. -/
def exchangeCodeForTokensTry (env : TokenEnv) (now : Nat) :
    Except Unit AuthResult :=
  match env.response with
  | Except.error () => Except.error ()
  | Except.ok response =>
  if !response.ok then
    match response.json with
    | Except.error () => Except.error ()
    | Except.ok body =>
      match body.errorMember with
      | none => Except.error ()
      | some info => pure (AuthResult.failure info.code info.message)
  else
    match response.json with
    | Except.error () => Except.error ()
    | Except.ok body =>
      match body.scope with
      | none => Except.error ()
      | some scopeStr =>
        pure (AuthResult.success
          { accessToken := body.accessToken
            refreshToken := body.refreshToken
            idToken := body.idToken
            expiresAt := now + body.expiresIn * 1000
            scope := scopeStr.splitOn " " })

/-- Embeds `MicrosoftAuthService.exchangeCodeForTokens` (lines 148-206 of
`microsoft-auth.ts`): the `try` body with every escaping fault converted by
the `catch` into the generic `TOKEN_EXCHANGE_ERROR` failure. -/
def exchangeCodeForTokens (env : TokenEnv) (now : Nat) : AuthResult :=
  match exchangeCodeForTokensTry env now with
  | Except.error () =>
    AuthResult.failure (some "TOKEN_EXCHANGE_ERROR")
      (some "Failed to exchange code for tokens")
  | Except.ok r => r

/-! Helper lemmas about the association-list embedding of `Map`. -/

@[simp]
theorem lookupA_setEntry_self {α : Type} (l : List (String × α)) (k : String)
    (v : α) : lookupA k (setEntry l k v) = some v := by
  induction l with
  | nil => simp [lookupA, setEntry]
  | cons hd tl ih =>
    obtain ⟨k', v'⟩ := hd
    by_cases h : k' = k <;> simp [lookupA, setEntry, h, ih]

theorem lookupA_setEntry_ne {α : Type} (l : List (String × α)) (k k' : String)
    (v : α) (h : k' ≠ k) : lookupA k' (setEntry l k v) = lookupA k' l := by
  have hk : ¬ k = k' := fun hh => h hh.symm
  induction l with
  | nil =>
    simp only [setEntry, lookupA]
    rw [if_neg hk]
  | cons hd tl ih =>
    obtain ⟨k₀, v₀⟩ := hd
    by_cases h₀ : k₀ = k
    · subst h₀
      simp only [setEntry, if_pos rfl, lookupA]
      rw [if_neg hk, if_neg hk]
    · simp only [setEntry, if_neg h₀, lookupA]
      by_cases h₁ : k₀ = k'
      · rw [if_pos h₁, if_pos h₁]
      · rw [if_neg h₁, if_neg h₁, ih]

theorem lookupA_append_of_some {α : Type} {l : List (String × α)} {k : String}
    {v : α} (l' : List (String × α)) (h : lookupA k l = some v) :
    lookupA k (l ++ l') = some v := by
  induction l with
  | nil => simp [lookupA] at h
  | cons hd tl ih =>
    obtain ⟨k₀, v₀⟩ := hd
    by_cases h₀ : k₀ = k
    · simp_all [lookupA]
    · simp only [lookupA, h₀, if_false, List.cons_append] at h ⊢
      exact ih h

/-! Claim C5. -/

/-- C5: `trackResource` against a sessionId absent from the ledger fails with
the `SessionNotFound` error ("Session ... not found") and returns the manager
— in-memory session map and persisted store — exactly unchanged. -/
theorem track_unknown_session_fails_no_mutation
    (m : ContentLifecycleManager)
    (sessionId resourceType resourceId displayName graphApiEndpoint : String)
    (parentResourceId : Option String)
    (metadata : Option (List (String × String))) (now : Nat)
    (h : lookupA sessionId m.sessions = none) :
    trackResource m sessionId resourceType resourceId displayName
      graphApiEndpoint parentResourceId metadata now =
      (some ("Session " ++ sessionId ++ " not found"), m) := by
  unfold trackResource
  rw [h]

/-- Witness for C5: the empty ledger rejects a track call without mutation. -/
theorem track_unknown_session_fails_no_mutation_witness :
    trackResource ⟨[], []⟩ "s1" "user" "u1" "User One" "https://g/u1"
      none none 7 = (some "Session s1 not found", ⟨[], []⟩) :=
  track_unknown_session_fails_no_mutation ⟨[], []⟩ "s1" "user" "u1" "User One"
    "https://g/u1" none none 7 rfl

/-! Claim C9. -/

/-- C9: `exchangeCodeForTokens` surfaces a well-formed provider error
envelope's code and message verbatim on a non-2xx response; a non-2xx
response whose body is not valid JSON or has no `error` member yields the
generic `TOKEN_EXCHANGE_ERROR` failure, as does a thrown transport fault; no
fault escapes the function (every escaping fault of the `try` body is
converted by the `catch` into the generic failure). -/
theorem exchange_error_envelope_handling (env : TokenEnv) (now : Nat) :
    (∀ resp body info, env.response = Except.ok resp → resp.ok = false →
      resp.json = Except.ok body → body.errorMember = some info →
      exchangeCodeForTokens env now = AuthResult.failure info.code info.message)
    ∧ (∀ resp, env.response = Except.ok resp → resp.ok = false →
      resp.json = Except.error () →
      exchangeCodeForTokens env now =
        AuthResult.failure (some "TOKEN_EXCHANGE_ERROR")
          (some "Failed to exchange code for tokens"))
    ∧ (∀ resp body, env.response = Except.ok resp → resp.ok = false →
      resp.json = Except.ok body → body.errorMember = none →
      exchangeCodeForTokens env now =
        AuthResult.failure (some "TOKEN_EXCHANGE_ERROR")
          (some "Failed to exchange code for tokens"))
    ∧ (env.response = Except.error () →
      exchangeCodeForTokens env now =
        AuthResult.failure (some "TOKEN_EXCHANGE_ERROR")
          (some "Failed to exchange code for tokens"))
    ∧ (exchangeCodeForTokensTry env now = Except.error () →
      exchangeCodeForTokens env now =
        AuthResult.failure (some "TOKEN_EXCHANGE_ERROR")
          (some "Failed to exchange code for tokens")) := by
  refine ⟨?_, ?_, ?_, ?_, ?_⟩
  · intro resp body info hresp hok hjson herr
    simp [exchangeCodeForTokens, exchangeCodeForTokensTry, hresp, hok, hjson,
      herr, pure, Except.pure]
  · intro resp hresp hok hjson
    simp [exchangeCodeForTokens, exchangeCodeForTokensTry, hresp, hok, hjson]
  · intro resp body hresp hok hjson herr
    simp [exchangeCodeForTokens, exchangeCodeForTokensTry, hresp, hok, hjson,
      herr]
  · intro hresp
    simp [exchangeCodeForTokens, exchangeCodeForTokensTry, hresp]
  · intro htry
    simp [exchangeCodeForTokens, htry]

/-- Witness for C9, instantiating the three non-2xx cases and the transport
fault at concrete environments. -/
theorem exchange_error_envelope_handling_witness :
    (exchangeCodeForTokens
      ⟨Except.ok ⟨false, Except.ok ⟨some ⟨some "invalid_grant", some "bad code"⟩,
        none, none, none, 0, none⟩⟩⟩ 0 =
      AuthResult.failure (some "invalid_grant") (some "bad code"))
    ∧ (exchangeCodeForTokens ⟨Except.ok ⟨false, Except.error ()⟩⟩ 0 =
      AuthResult.failure (some "TOKEN_EXCHANGE_ERROR")
        (some "Failed to exchange code for tokens"))
    ∧ (exchangeCodeForTokens
      ⟨Except.ok ⟨false, Except.ok ⟨none, none, none, none, 0, none⟩⟩⟩ 0 =
      AuthResult.failure (some "TOKEN_EXCHANGE_ERROR")
        (some "Failed to exchange code for tokens"))
    ∧ (exchangeCodeForTokens ⟨Except.error ()⟩ 0 =
      AuthResult.failure (some "TOKEN_EXCHANGE_ERROR")
        (some "Failed to exchange code for tokens")) :=
  ⟨(exchange_error_envelope_handling
      ⟨Except.ok ⟨false, Except.ok ⟨some ⟨some "invalid_grant", some "bad code"⟩,
        none, none, none, 0, none⟩⟩⟩ 0).1 _ _ _ rfl rfl rfl rfl,
   (exchange_error_envelope_handling
      ⟨Except.ok ⟨false, Except.error ()⟩⟩ 0).2.1 _ rfl rfl rfl,
   (exchange_error_envelope_handling
      ⟨Except.ok ⟨false, Except.ok ⟨none, none, none, none, 0, none⟩⟩⟩ 0).2.2.1
      _ _ rfl rfl rfl rfl,
   (exchange_error_envelope_handling ⟨Except.error ()⟩ 0).2.2.2.1 rfl⟩

/-! Helper lemmas about the forced-provisioning retry loop. -/

/-- Single-step unfolding of the loop for an iteration whose fetch returns a
plain unsuccessful response. -/
theorem provLoop_step_otherFail (env : ProvEnv) (n mw attempt fuel : Nat)
    (h : env.outcome attempt = AttemptOutcome.otherFail) :
    provLoop env n mw attempt (fuel + 1) =
      (let ws := if attempt < n then [waitTime attempt] else []
       if env.elapsed attempt > mw then
         { status := ProvStatus.provisioningTimeout, sleeps := ws, attempts := 1 }
       else
         let r := provLoop env n mw (attempt + 1) fuel
         { status := r.status, sleeps := ws ++ r.sleeps,
           attempts := r.attempts + 1 }) := by
  conv_lhs => rw [provLoop]
  rw [h]

/-- Single-step unfolding of the loop for an iteration whose fetch throws. -/
theorem provLoop_step_throwErr (env : ProvEnv) (n mw attempt fuel : Nat)
    (h : env.outcome attempt = AttemptOutcome.throwErr) :
    provLoop env n mw attempt (fuel + 1) =
      (if attempt = n then
         { status := ProvStatus.errorStatus, sleeps := [], attempts := 1 }
       else if env.elapsed attempt > mw then
         { status := ProvStatus.provisioningTimeout, sleeps := [], attempts := 1 }
       else
         let r := provLoop env n mw (attempt + 1) fuel
         { status := r.status, sleeps := r.sleeps,
           attempts := r.attempts + 1 }) := by
  conv_lhs => rw [provLoop]
  rw [h]

/-- Run shape of the loop when every attempt yields a plain unsuccessful
response and the wait budget never fires: every iteration sleeps (except the
final one), and the run ends in the post-loop timeout result. -/
theorem provLoop_const_fail (env : ProvEnv) (n mw : Nat)
    (houtcome : ∀ i, env.outcome i = AttemptOutcome.otherFail)
    (helapsed : ∀ i, env.elapsed i ≤ mw) :
    ∀ f attempt, attempt + f = n →
      provLoop env n mw attempt (f + 1) =
        { status := ProvStatus.provisioningTimeout
          sleeps := (List.range' attempt f).map waitTime
          attempts := f + 1 } := by
  intro f
  induction f with
  | zero =>
    intro attempt h
    simp only [Nat.add_zero] at h
    subst h
    rw [provLoop_step_otherFail env attempt mw attempt 0 (houtcome attempt)]
    simp only [Nat.lt_irrefl, if_false, Nat.not_lt.mpr (helapsed attempt),
      List.range'_zero, List.map_nil]
    simp [provLoop]
  | succ f ih =>
    intro attempt h
    have hlt : attempt < n := by omega
    have hrec := ih (attempt + 1) (by omega)
    rw [provLoop_step_otherFail env n mw attempt (f + 1) (houtcome attempt)]
    simp only [hlt, if_true, Nat.not_lt.mpr (helapsed attempt), if_false, hrec,
      List.range'_succ, List.map_cons]
    simp

/-- Status of the run when all attempts before the final one yield plain
unsuccessful responses within the wait budget and the final attempt throws a
transport fault: the rethrow on the last attempt reaches the outer catch. -/
theorem provLoop_final_throw (env : ProvEnv) (n mw : Nat)
    (hpre : ∀ i, 1 ≤ i → i < n → env.outcome i = AttemptOutcome.otherFail)
    (helap : ∀ i, 1 ≤ i → i < n → env.elapsed i ≤ mw)
    (hfin : env.outcome n = AttemptOutcome.throwErr) :
    ∀ f attempt, attempt + f = n → 1 ≤ attempt →
      (provLoop env n mw attempt (f + 1)).status = ProvStatus.errorStatus := by
  intro f
  induction f with
  | zero =>
    intro attempt h _
    simp only [Nat.add_zero] at h
    subst h
    simp [provLoop, hfin]
  | succ f ih =>
    intro attempt h h1
    have hlt : attempt < n := by omega
    rw [provLoop_step_otherFail env n mw attempt (f + 1) (hpre attempt h1 hlt)]
    simp only [hlt, if_true, Nat.not_lt.mpr (helap attempt h1 hlt), if_false]
    exact ih (attempt + 1) (by omega) (by omega)

/-- Status of the run when all attempts yield plain unsuccessful responses
(those before the final one within the wait budget): the loop falls through
to the post-loop timeout result, regardless of the final iteration's
elapsed-time check. -/
theorem provLoop_final_otherFail (env : ProvEnv) (n mw : Nat)
    (hpre : ∀ i, 1 ≤ i → i < n → env.outcome i = AttemptOutcome.otherFail)
    (helap : ∀ i, 1 ≤ i → i < n → env.elapsed i ≤ mw)
    (hfin : env.outcome n = AttemptOutcome.otherFail) :
    ∀ f attempt, attempt + f = n → 1 ≤ attempt →
      (provLoop env n mw attempt (f + 1)).status =
        ProvStatus.provisioningTimeout := by
  intro f
  induction f with
  | zero =>
    intro attempt h _
    simp only [Nat.add_zero] at h
    subst h
    rw [provLoop_step_otherFail env attempt mw attempt 0 hfin]
    by_cases hel : env.elapsed attempt > mw
    · simp [hel]
    · simp [hel, provLoop]
  | succ f ih =>
    intro attempt h h1
    have hlt : attempt < n := by omega
    rw [provLoop_step_otherFail env n mw attempt (f + 1) (hpre attempt h1 hlt)]
    simp only [hlt, if_true, Nat.not_lt.mpr (helap attempt h1 hlt), if_false]
    exact ih (attempt + 1) (by omega) (by omega)

/-! Claim C7. -/

/-- C7: with at least 6 allowed attempts and the drive never becoming ready,
the backoff sleeps between attempts 1..5 are exactly 10, 20, 30, 30, 30
seconds; the backoff formula is `min(attempt * 10, 30)`, monotonically
non-decreasing and capped at 30 seconds. -/
theorem backoff_schedule (env : ProvEnv) (n mw : Nat) (h6 : 6 ≤ n)
    (houtcome : ∀ i, env.outcome i = AttemptOutcome.otherFail)
    (helapsed : ∀ i, env.elapsed i ≤ mw) :
    (forceOneDriveProvisioning env n mw).sleeps.take 5 = [10, 20, 30, 30, 30]
    ∧ (∀ a, waitTime a = min (a * 10) 30)
    ∧ (∀ a b, a ≤ b → waitTime a ≤ waitTime b)
    ∧ (∀ a, waitTime a ≤ 30) := by
  refine ⟨?_, fun a => rfl, ?_, ?_⟩
  · obtain ⟨k, rfl⟩ : ∃ k, n = k + 6 := ⟨n - 6, by omega⟩
    have hrun : provLoop env (k + 6) mw 1 (k + 5 + 1) =
        { status := ProvStatus.provisioningTimeout
          sleeps := (List.range' 1 (k + 5)).map waitTime
          attempts := k + 5 + 1 } :=
      provLoop_const_fail env (k + 6) mw houtcome helapsed (k + 5) 1 (by omega)
    have hsplit : List.range' 1 (k + 5) =
        List.range' 1 5 ++ List.range' 6 k := by
      have h := List.range'_append_1 1 5 k
      simpa using h.symm
    unfold forceOneDriveProvisioning
    have hfuel : k + 6 = k + 5 + 1 := by omega
    rw [hfuel, hrun]
    simp only [hsplit, List.map_append]
    rw [List.take_append_of_le_length (by simp)]
    decide
  · intro a b hab
    unfold waitTime
    omega
  · intro a
    unfold waitTime
    omega

/-- Witness for C7 at a concrete run with 6 allowed attempts. -/
theorem backoff_schedule_witness :
    (forceOneDriveProvisioning
      ⟨fun _ => AttemptOutcome.otherFail, fun _ => 0⟩ 6 0).sleeps.take 5 =
      [10, 20, 30, 30, 30] :=
  (backoff_schedule ⟨fun _ => AttemptOutcome.otherFail, fun _ => 0⟩ 6 0
    (by norm_num) (fun _ => rfl) (fun _ => Nat.le_refl 0)).1

/-! Claim C3. -/

/-- C3 counterexample: on its single (hence final) allowed attempt the fetch
returns a plain non-2xx response, yet the function returns the timeout
outcome (`PROVISIONING`/`PROVISIONING_TIMEOUT`), not the `Failed` outcome
(`ERROR`) the claim requires for every final-attempt non-2xx. -/
theorem final_non2xx_times_out_cex :
    (forceOneDriveProvisioning
      ⟨fun _ => AttemptOutcome.otherFail, fun _ => 0⟩ 1 600).status =
      ProvStatus.provisioningTimeout
    ∧ ProvStatus.provisioningTimeout ≠ ProvStatus.errorStatus := by
  decide

/-- C3 as amended: when the earlier attempts all end in plain non-2xx
responses within the wait budget, a transport fault thrown on the final
allowed attempt propagates as the `Failed` outcome (`ERROR`), while a plain
non-2xx response on the final attempt falls through to the `TimedOut`
outcome (`PROVISIONING_TIMEOUT`); on non-final attempts either case leads to
a retry rather than a return. -/
theorem final_attempt_outcomes (env : ProvEnv) (n mw : Nat) (h1 : 1 ≤ n)
    (hpre : ∀ i, 1 ≤ i → i < n → env.outcome i = AttemptOutcome.otherFail)
    (helap : ∀ i, 1 ≤ i → i < n → env.elapsed i ≤ mw) :
    (env.outcome n = AttemptOutcome.throwErr →
      (forceOneDriveProvisioning env n mw).status = ProvStatus.errorStatus)
    ∧ (env.outcome n = AttemptOutcome.otherFail →
      (forceOneDriveProvisioning env n mw).status =
        ProvStatus.provisioningTimeout) := by
  constructor <;> intro hfin
  · unfold forceOneDriveProvisioning
    have h := provLoop_final_throw env n mw hpre helap hfin (n - 1) 1
      (by omega) (by omega)
    rwa [show n - 1 + 1 = n from by omega] at h
  · unfold forceOneDriveProvisioning
    have h := provLoop_final_otherFail env n mw hpre helap hfin (n - 1) 1
      (by omega) (by omega)
    rwa [show n - 1 + 1 = n from by omega] at h

/-- Witness for C3's amended statement at two concrete one-attempt runs. -/
theorem final_attempt_outcomes_witness :
    (forceOneDriveProvisioning
      ⟨fun _ => AttemptOutcome.throwErr, fun _ => 0⟩ 1 600).status =
      ProvStatus.errorStatus
    ∧ (forceOneDriveProvisioning
      ⟨fun _ => AttemptOutcome.otherFail, fun _ => 0⟩ 1 600).status =
      ProvStatus.provisioningTimeout :=
  ⟨(final_attempt_outcomes ⟨fun _ => AttemptOutcome.throwErr, fun _ => 0⟩ 1 600
      (by norm_num) (fun i hi hlt => absurd (Nat.lt_of_le_of_lt hi hlt)
        (by omega)) (fun i hi hlt => absurd (Nat.lt_of_le_of_lt hi hlt)
        (by omega))).1 rfl,
   (final_attempt_outcomes ⟨fun _ => AttemptOutcome.otherFail, fun _ => 0⟩ 1 600
      (by norm_num) (fun i hi hlt => absurd (Nat.lt_of_le_of_lt hi hlt)
        (by omega)) (fun i hi hlt => absurd (Nat.lt_of_le_of_lt hi hlt)
        (by omega))).2 rfl⟩

/-! Claim C4. -/

/-- C4 counterexample: with the wait budget already exhausted before the
first iteration (elapsed 100s, budget 0s) and attempts remaining, the claim
as stated predicts the loop stops without sleeping; the code instead
performs the iteration's 10-second backoff sleep first and only then checks
the budget, so the run records one sleep. -/
theorem budget_check_after_sleep_cex :
    forceOneDriveProvisioning
      ⟨fun _ => AttemptOutcome.otherFail, fun _ => 100⟩ 3 0 =
      { status := ProvStatus.provisioningTimeout, sleeps := [10], attempts := 1 }
    ∧ ([10] : List Nat) ≠ [] := by
  decide

/-- C4 as amended: on an iteration with a retry pending, the backoff sleep is
performed first and the elapsed-time check only afterwards; when the elapsed
time exceeds `maxWaitSeconds` the loop stops after that single sleep — no
further attempt and no further sleep — and returns the timeout outcome. -/
theorem budget_exceeded_stops_after_one_sleep (env : ProvEnv) (n mw : Nat)
    (h2 : 2 ≤ n) (hout : env.outcome 1 = AttemptOutcome.otherFail)
    (hel : env.elapsed 1 > mw) :
    forceOneDriveProvisioning env n mw =
      { status := ProvStatus.provisioningTimeout, sleeps := [10],
        attempts := 1 } := by
  unfold forceOneDriveProvisioning
  obtain ⟨k, rfl⟩ : ∃ k, n = k + 2 := ⟨n - 2, by omega⟩
  rw [show k + 2 = (k + 1) + 1 from rfl,
    provLoop_step_otherFail env (k + 2) mw 1 (k + 1) hout]
  have hlt : (1 : Nat) < k + 2 := by omega
  simp [hel, hlt, waitTime]

/-- Witness for C4's amended statement. -/
theorem budget_exceeded_stops_after_one_sleep_witness :
    forceOneDriveProvisioning
      ⟨fun _ => AttemptOutcome.otherFail, fun _ => 100⟩ 2 0 =
      { status := ProvStatus.provisioningTimeout, sleeps := [10],
        attempts := 1 } :=
  budget_exceeded_stops_after_one_sleep
    ⟨fun _ => AttemptOutcome.otherFail, fun _ => 100⟩ 2 0 (by norm_num) rfl
    (by norm_num)

/-! Helper lemmas about the state JSON embedding. -/

@[simp]
theorem stringData_mk (l : List Char) : (String.mk l).data = l := rfl

theorem stripLead_append (p rest : List Char) :
    stripLead p (p ++ rest) = some rest := by
  induction p with
  | nil => rfl
  | cons c cs ih => simp [stripLead, ih]

theorem takeWhile_no_quote (l r : List Char) (h : ∀ c ∈ l, c ≠ '"') :
    List.takeWhile (fun c => c != '"') (l ++ '"' :: r) = l := by
  induction l with
  | nil => simp [List.takeWhile]
  | cons c cs ih =>
    have hc : (c != '"') = true := by
      simp [bne_iff_ne]
      exact h c (List.mem_cons_self c cs)
    simp only [List.cons_append, List.takeWhile_cons, hc, if_true]
    rw [ih (fun c hc => h c (List.mem_cons_of_mem _ hc))]

theorem dropWhile_no_quote (l r : List Char) (h : ∀ c ∈ l, c ≠ '"') :
    List.dropWhile (fun c => c != '"') (l ++ '"' :: r) = '"' :: r := by
  induction l with
  | nil => simp [List.dropWhile]
  | cons c cs ih =>
    have hc : (c != '"') = true := by
      simp [bne_iff_ne]
      exact h c (List.mem_cons_self c cs)
    simp only [List.cons_append, List.dropWhile_cons, hc, if_true]
    exact ih (fun c hc => h c (List.mem_cons_of_mem _ hc))

/-- Parsing inverts serialization for the state payloads the service builds,
provided the embedded random state contains no quote character (UUIDs are hex
digits and dashes). -/
theorem parseStateJson_mkStateJson (genState : String) (force : Bool)
    (h : ∀ c ∈ genState.data, c ≠ '"') :
    parseStateJson (mkStateJson genState force) =
      some { state := genState, forceOneDriveProvisioning := some force } := by
  have hmid : stateJsonMid = '"' :: ",\"forceOneDriveProvisioning\":".data := rfl
  have hdata : (mkStateJson genState force).data =
      stateJsonHead ++ (genState.data ++ '"' ::
        (",\"forceOneDriveProvisioning\":".data ++
          ((if force then "true" else "false").data ++ ['\x7d']))) := by
    show stateJsonHead ++ genState.data ++ stateJsonMid ++
        (if force then "true" else "false").data ++ ['\x7d'] = _
    rw [hmid]
    simp [List.append_assoc]
  unfold parseStateJson
  rw [hdata, stripLead_append]
  simp only
  rw [takeWhile_no_quote _ _ h, dropWhile_no_quote _ _ h]
  rw [show ('"' :: (",\"forceOneDriveProvisioning\":".data ++
      ((if force then "true" else "false").data ++ ['\x7d']))) =
      stateJsonMid ++ ((if force then "true" else "false").data ++ ['\x7d'])
    from by rw [hmid]; rfl]
  rw [stripLead_append]
  cases force <;> simp

/-! Claim C2. -/

/-- C2 counterexample: `initiateAuthFlow` stores the JSON-wrapped preference
only in the authorization URL's `state` query parameter and returns the bare
UUID in its `state` field; feeding that returned `state` back into
`handleCallback` makes `JSON.parse` throw, so the callback fails with
`CALLBACK_ERROR` instead of resolving the originally supplied preference
(`true`). -/
theorem returned_state_fails_callback_cex :
    handleCallback ⟨"client-id", "https://app/callback", ["openid"], false⟩
      (initiateAuthFlow ⟨"client-id", "https://app/callback", ["openid"], false⟩
        "123e4567-e89b-12d3-a456-426614174000" "verifier-1" (some true)
        none).state none =
      CallbackStage.failure "CALLBACK_ERROR"
    ∧ CallbackStage.failure "CALLBACK_ERROR" ≠ CallbackStage.proceeds true := by
  constructor
  · rfl
  · decide

/-- C2 as amended: the forced-provisioning preference round-trips through the
`state` *query parameter* of the authorization URL (the JSON-serialized
`stateData`), not through the `state` field of `initiateAuthFlow`'s return
value: feeding that parameter to `handleCallback` with no caller override
parses successfully and resolves the original preference. -/
theorem state_param_roundtrip (config : AuthConfig)
    (genState genVerifier : String) (force : Bool)
    (customScopes : Option (List String))
    (h : ∀ c ∈ genState.data, c ≠ '"') :
    lookupA "state" (initiateAuthFlow config genState genVerifier (some force)
      customScopes).authUrlParams = some (mkStateJson genState force)
    ∧ handleCallback config (mkStateJson genState force) none =
      CallbackStage.proceeds force := by
  constructor
  · simp [initiateAuthFlow, lookupA]
  · unfold handleCallback
    rw [parseStateJson_mkStateJson genState force h]
    rfl

/-- Witness for C2's amended statement at a concrete quote-free state. -/
theorem state_param_roundtrip_witness :
    lookupA "state" (initiateAuthFlow
      ⟨"client-id", "https://app/callback", ["openid"], false⟩ "abc-123"
      "verifier-1" (some true) none).authUrlParams =
      some (mkStateJson "abc-123" true)
    ∧ handleCallback ⟨"client-id", "https://app/callback", ["openid"], false⟩
      (mkStateJson "abc-123" true) none = CallbackStage.proceeds true :=
  state_param_roundtrip ⟨"client-id", "https://app/callback", ["openid"], false⟩
    "abc-123" "verifier-1" true none (by decide)

/-! Helper lemmas about the grouping loop of the cleanup planner. -/

/-- Each type of the fixed order starts with an empty group. -/
theorem lookupA_initGroups (t : String) (ht : t ∈ cleanupOrder) :
    lookupA t initGroups = some [] := by
  simp only [cleanupOrder, List.mem_cons, List.not_mem_nil, or_false] at ht
  rcases ht with rfl | rfl | rfl | rfl | rfl | rfl <;> rfl

/-- Pointwise description of the grouping fold: a type that starts with group
`l` ends with `l` followed by the session's resources of that type, in
insertion order. -/
theorem lookupA_groupFold (t : String) :
    ∀ (rs : List ContentRecord) (groups : List (String × List ContentRecord))
      (ws : List String) (l : List ContentRecord),
      lookupA t groups = some l →
      lookupA t (rs.foldl groupStep (groups, ws)).1 =
        some (l ++ rs.filter (fun r => r.resourceType == t)) := by
  intro rs
  induction rs with
  | nil => intro groups ws l hl; simpa using hl
  | cons r rs ih =>
    intro groups ws l hl
    rw [List.foldl_cons]
    cases hty : lookupA r.resourceType groups with
    | some l₀ =>
      by_cases heq : r.resourceType = t
      · have hll : l₀ = l := by
          rw [heq] at hty
          rw [hty] at hl
          exact Option.some.inj hl
        subst hll
        have hset : lookupA t (setEntry groups r.resourceType (l₀ ++ [r])) =
            some (l₀ ++ [r]) := by
          rw [heq]; exact lookupA_setEntry_self groups t (l₀ ++ [r])
        have := ih (setEntry groups r.resourceType (l₀ ++ [r])) ws (l₀ ++ [r]) hset
        rw [show groupStep (groups, ws) r =
            (setEntry groups r.resourceType (l₀ ++ [r]), ws) from by
          simp [groupStep, hty]]
        rw [this, List.filter_cons, show (r.resourceType == t) = true from
          beq_iff_eq.mpr heq]
        simp
      · have hset : lookupA t (setEntry groups r.resourceType (l₀ ++ [r])) =
            some l := by
          rw [lookupA_setEntry_ne groups r.resourceType t (l₀ ++ [r])
            (fun hh => heq hh.symm)]
          exact hl
        have := ih (setEntry groups r.resourceType (l₀ ++ [r])) ws l hset
        rw [show groupStep (groups, ws) r =
            (setEntry groups r.resourceType (l₀ ++ [r]), ws) from by
          simp [groupStep, hty]]
        rw [this, List.filter_cons, show (r.resourceType == t) = false from
          beq_eq_false_iff_ne.mpr heq]
        simp
    | none =>
      have hne : r.resourceType ≠ t := by
        intro hh
        rw [hh, hl] at hty
        cases hty
      have happ : lookupA t (groups ++ [(r.resourceType, [r])]) = some l :=
        lookupA_append_of_some _ hl
      have := ih (groups ++ [(r.resourceType, [r])])
        (ws ++ ["Unknown resource type: " ++ r.resourceType]) l happ
      rw [show groupStep (groups, ws) r =
          (groups ++ [(r.resourceType, [r])],
           ws ++ ["Unknown resource type: " ++ r.resourceType]) from by
        simp [groupStep, hty]]
      rw [this, List.filter_cons, show (r.resourceType == t) = false from
        beq_eq_false_iff_ne.mpr hne]
      simp

/-- Groups of the generated plan, for every type of the fixed order: exactly
the session's resources of that type, in insertion order. -/
theorem planForSession_group (session : DemoSession) (t : String)
    (ht : t ∈ cleanupOrder) :
    lookupA t (planForSession session).resources =
      some (session.resources.filter (fun r => r.resourceType == t)) := by
  have h := lookupA_groupFold t session.resources initGroups [] []
    (lookupA_initGroups t ht)
  simpa [planForSession] using h

/-! Claim C1. -/

/-- C1 counterexample: for a session tracking exactly one `user`, one `file`
and one `license` resource, `generateCleanupPlan` returns the full fixed
order `[file, email, chat, license, user, team]`, not the filtered sequence
`[file, license, user]` the claim requires. -/
theorem plan_order_not_filtered_cex :
    (generateCleanupPlan
      ⟨[("s", ⟨"s", "t", 0, SessionStatus.active, 3, 0,
        [⟨"user-u1-1", "t", "s", "user", "u1", none, "e1", "U", 1, []⟩,
         ⟨"file-f1-2", "t", "s", "file", "f1", none, "e2", "F", 2, []⟩,
         ⟨"license-l1-3", "t", "s", "license", "l1", none, "e3", "L", 3,
          []⟩]⟩)],
       []⟩ "s").map CleanupPlan.order =
      Except.ok ["file", "email", "chat", "license", "user", "team"]
    ∧ (["file", "email", "chat", "license", "user", "team"] : List String) ≠
      ["file", "license", "user"] :=
  ⟨rfl, by decide⟩

/-- C1 as amended: for every known session, the plan's `order` is the full
fixed sequence `[file, email, chat, license, user, team]` — never filtered
down to the types present — while for each type of the fixed order the
plan's group holds exactly the session's resources of that type (so absent
types map to empty groups, and the resources of a session containing only
`team` records all sit in `groups['team']`); unknown types are grouped but
never added to `order`. -/
theorem plan_order_full_and_groups (m : ContentLifecycleManager) (sid : String)
    (session : DemoSession) (h : lookupA sid m.sessions = some session) :
    generateCleanupPlan m sid = Except.ok (planForSession session)
    ∧ (planForSession session).order =
      ["file", "email", "chat", "license", "user", "team"]
    ∧ ∀ t ∈ cleanupOrder, lookupA t (planForSession session).resources =
      some (session.resources.filter (fun r => r.resourceType == t)) := by
  refine ⟨?_, rfl, fun t ht => planForSession_group session t ht⟩
  unfold generateCleanupPlan
  rw [h]

/-- Witness for C1's amended statement at a concrete one-session ledger. -/
theorem plan_order_full_and_groups_witness :
    generateCleanupPlan
      ⟨[("s", ⟨"s", "t", 0, SessionStatus.active, 0, 0, []⟩)], []⟩ "s" =
      Except.ok (planForSession ⟨"s", "t", 0, SessionStatus.active, 0, 0, []⟩) :=
  (plan_order_full_and_groups
    ⟨[("s", ⟨"s", "t", 0, SessionStatus.active, 0, 0, []⟩)], []⟩ "s"
    ⟨"s", "t", 0, SessionStatus.active, 0, 0, []⟩ rfl).1

/-! Counting lemmas for the cleanup executor. -/

theorem sum_map_add_nat {α : Type} (f g : α → Nat) (l : List α) :
    (l.map (fun x => f x + g x)).sum = (l.map f).sum + (l.map g).sum := by
  induction l with
  | nil => simp
  | cons a l ih =>
    simp only [List.map_cons, List.sum_cons, ih]
    omega

theorem sum_map_ite_mem (ts : List String) (x : String) (h : ts.Nodup) :
    (ts.map (fun t => if x = t then 1 else 0)).sum =
      if x ∈ ts then 1 else 0 := by
  induction ts with
  | nil => simp
  | cons t ts ih =>
    obtain ⟨hnt, hnd⟩ := List.nodup_cons.mp h
    by_cases hx : x = t
    · subst hx
      simp only [List.map_cons, List.sum_cons, if_pos rfl, ih hnd,
        if_neg hnt, List.mem_cons, true_or, if_true]
    · simp only [List.map_cons, List.sum_cons, if_neg hx, ih hnd,
        List.mem_cons]
      simp [hx]

theorem length_filter_sum (ts : List String) (h : ts.Nodup) :
    ∀ rs : List ContentRecord,
      (ts.map (fun t =>
        (rs.filter (fun r => r.resourceType == t)).length)).sum =
      (rs.filter (fun r => decide (r.resourceType ∈ ts))).length := by
  intro rs
  induction rs with
  | nil => simp
  | cons r rs ih =>
    have hstep : ∀ t ∈ ts,
        (List.filter (fun x => x.resourceType == t) (r :: rs)).length =
          (fun t => (if r.resourceType = t then 1 else 0) +
            (List.filter (fun x => x.resourceType == t) rs).length) t := by
      intro t _
      by_cases hrt : r.resourceType = t
      · simp [List.filter_cons, hrt]
        omega
      · simp [List.filter_cons, hrt]
    rw [List.map_congr_left hstep, sum_map_add_nat, sum_map_ite_mem ts _ h, ih]
    by_cases hm : r.resourceType ∈ ts
    · simp only [List.filter_cons, hm, if_pos hm, List.length_cons]
      simp
      omega
    · simp only [List.filter_cons, hm, if_neg hm]
      simp [hm]

theorem length_filter_lt (p : ContentRecord → Bool) (rs : List ContentRecord)
    (r : ContentRecord) (hr : r ∈ rs) (hp : p r = false) :
    (rs.filter p).length < rs.length := by
  induction rs with
  | nil => cases hr
  | cons a rs ih =>
    rcases List.mem_cons.mp hr with rfl | hmem
    · simp only [List.filter_cons, hp, List.length_cons]
      exact Nat.lt_succ_of_le (List.length_filter_le p rs)
    · by_cases ha : p a
      · simp only [List.filter_cons, ha, if_pos, List.length_cons]
        exact Nat.succ_lt_succ (ih hmem)
      · simp only [List.filter_cons, ha, Bool.false_eq_true, if_false,
          List.length_cons]
        exact Nat.lt_succ_of_lt (ih hmem)

/-- Processed-resource count of a cleanup run: the count increments once per
item of each group of the fixed order, i.e. once per session resource whose
type belongs to the fixed order, in both dry-run and live mode. -/
theorem cleanupActions_length (session : DemoSession) (dryRun : Bool) :
    (cleanupActions (planForSession session) dryRun).length =
      (session.resources.filter
        (fun r => decide (r.resourceType ∈ cleanupOrder))).length := by
  unfold cleanupActions
  rw [List.length_flatten, List.map_map]
  have hpt : ∀ t ∈ (planForSession session).order,
      (List.length ∘ fun t =>
        ((lookupA t (planForSession session).resources).getD []).map
          (fun item => if dryRun then CleanupEvent.wouldDelete t item
            else CleanupEvent.delete t item)) t =
      (fun t =>
        (session.resources.filter (fun r => r.resourceType == t)).length) t := by
    intro t ht
    have hord : t ∈ cleanupOrder := ht
    simp only [Function.comp_apply, planForSession_group session t hord,
      Option.getD_some, List.length_map]
  rw [List.map_congr_left hpt]
  have horder : (planForSession session).order = cleanupOrder := rfl
  rw [horder, length_filter_sum cleanupOrder (by decide) session.resources]

/-! Claim C6. -/

/-- C6: for every known session (whose resources all carry types of the fixed
order, so that every deletion is attempted, and whose `totalResources`
invariant holds), `executeCleanup` first persists status `cleaning` (the
first observable event, before any deletion), a dry run performs no deletion
and ends with status back to `active`, a live run ends with status `cleaned`,
and both runs set and persist `cleanedResources` to the session's total
resource count — per-item deletion failures cannot reduce the count, since it
is incremented for every attempted item. -/
theorem executeCleanup_statuses_and_count (m : ContentLifecycleManager)
    (sid : String) (session : DemoSession)
    (h : lookupA sid m.sessions = some session)
    (hall : ∀ r ∈ session.resources, r.resourceType ∈ cleanupOrder)
    (htot : session.totalResources = session.resources.length) :
    ∃ mDry evDry mLive evLive,
      executeCleanup m sid true = Except.ok (mDry, evDry)
      ∧ executeCleanup m sid false = Except.ok (mLive, evLive)
      ∧ evDry.head? = some (CleanupEvent.save
          (setEntry m.sessions sid { session with status := SessionStatus.cleaning }))
      ∧ evLive.head? = some (CleanupEvent.save
          (setEntry m.sessions sid { session with status := SessionStatus.cleaning }))
      ∧ (∀ t r, CleanupEvent.delete t r ∉ evDry)
      ∧ lookupA sid mDry.sessions = some { session with
          status := SessionStatus.active,
          cleanedResources := session.totalResources }
      ∧ lookupA sid mLive.sessions = some { session with
          status := SessionStatus.cleaned,
          cleanedResources := session.totalResources }
      ∧ mDry.saved = mDry.sessions ∧ mLive.saved = mLive.sessions := by
  have hcount : ∀ dryRun,
      (cleanupActions (planForSession session) dryRun).length =
        session.totalResources := by
    intro dryRun
    rw [cleanupActions_length, htot]
    congr 1
    exact List.filter_eq_self.mpr (fun r hr => decide_eq_true (hall r hr))
  have hnodel : ∀ t r, CleanupEvent.delete t r ∉
      cleanupActions (planForSession session) true := by
    intro t r hmem
    unfold cleanupActions at hmem
    rw [List.mem_flatten] at hmem
    obtain ⟨l, hl, hrl⟩ := hmem
    rw [List.mem_map] at hl
    obtain ⟨t', _, rfl⟩ := hl
    rw [List.mem_map] at hrl
    obtain ⟨item, _, heq⟩ := hrl
    simp at heq
  unfold executeCleanup
  rw [h]
  refine ⟨_, _, _, _, rfl, rfl, rfl, rfl, ?_, ?_, ?_, rfl, rfl⟩
  · intro t r hmem
    rcases List.mem_cons.mp hmem with heq | hmem'
    · cases heq
    · rcases List.mem_append.mp hmem' with hact | hsave
      · exact hnodel t r hact
      · rcases List.mem_singleton.mp hsave with heq
        cases heq
  · rw [lookupA_setEntry_self, hcount true]
    rfl
  · rw [lookupA_setEntry_self, hcount false]
    rfl

/-- Witness for C6 at a ledger with one single-file session. -/
theorem executeCleanup_statuses_and_count_witness :
    ∃ mDry evDry mLive evLive,
      executeCleanup
        ⟨[("s", ⟨"s", "t", 0, SessionStatus.active, 1, 0,
          [⟨"file-f1-2", "t", "s", "file", "f1", none, "e2", "F", 2, []⟩]⟩)],
         []⟩ "s" true = Except.ok (mDry, evDry)
      ∧ executeCleanup
        ⟨[("s", ⟨"s", "t", 0, SessionStatus.active, 1, 0,
          [⟨"file-f1-2", "t", "s", "file", "f1", none, "e2", "F", 2, []⟩]⟩)],
         []⟩ "s" false = Except.ok (mLive, evLive)
      ∧ evDry.head? = some (CleanupEvent.save
          (setEntry [("s", ⟨"s", "t", 0, SessionStatus.active, 1, 0,
            [⟨"file-f1-2", "t", "s", "file", "f1", none, "e2", "F", 2, []⟩]⟩)]
            "s" { (⟨"s", "t", 0, SessionStatus.active, 1, 0,
              [⟨"file-f1-2", "t", "s", "file", "f1", none, "e2", "F", 2,
                []⟩]⟩ : DemoSession) with status := SessionStatus.cleaning }))
      ∧ evLive.head? = some (CleanupEvent.save
          (setEntry [("s", ⟨"s", "t", 0, SessionStatus.active, 1, 0,
            [⟨"file-f1-2", "t", "s", "file", "f1", none, "e2", "F", 2, []⟩]⟩)]
            "s" { (⟨"s", "t", 0, SessionStatus.active, 1, 0,
              [⟨"file-f1-2", "t", "s", "file", "f1", none, "e2", "F", 2,
                []⟩]⟩ : DemoSession) with status := SessionStatus.cleaning }))
      ∧ (∀ t r, CleanupEvent.delete t r ∉ evDry)
      ∧ lookupA "s" mDry.sessions = some
          { (⟨"s", "t", 0, SessionStatus.active, 1, 0,
            [⟨"file-f1-2", "t", "s", "file", "f1", none, "e2", "F", 2,
              []⟩]⟩ : DemoSession) with
            status := SessionStatus.active, cleanedResources := 1 }
      ∧ lookupA "s" mLive.sessions = some
          { (⟨"s", "t", 0, SessionStatus.active, 1, 0,
            [⟨"file-f1-2", "t", "s", "file", "f1", none, "e2", "F", 2,
              []⟩]⟩ : DemoSession) with
            status := SessionStatus.cleaned, cleanedResources := 1 }
      ∧ mDry.saved = mDry.sessions ∧ mLive.saved = mLive.sessions :=
  executeCleanup_statuses_and_count
    ⟨[("s", ⟨"s", "t", 0, SessionStatus.active, 1, 0,
      [⟨"file-f1-2", "t", "s", "file", "f1", none, "e2", "F", 2, []⟩]⟩)], []⟩
    "s" ⟨"s", "t", 0, SessionStatus.active, 1, 0,
      [⟨"file-f1-2", "t", "s", "file", "f1", none, "e2", "F", 2, []⟩]⟩ rfl
    (by intro r hr; simp only [List.mem_singleton] at hr; subst hr; decide)
    rfl

/-- Every live deletion attempt of a cleanup run targets a resource of the
session whose type belongs to the fixed order. -/
theorem delete_mem_cleanupActions (session : DemoSession) (t : String)
    (r : ContentRecord)
    (hmem : CleanupEvent.delete t r ∈
      cleanupActions (planForSession session) false) :
    r.resourceType ∈ cleanupOrder ∧ r ∈ session.resources := by
  unfold cleanupActions at hmem
  rw [List.mem_flatten] at hmem
  obtain ⟨l, hl, hrl⟩ := hmem
  rw [List.mem_map] at hl
  obtain ⟨t', ht', rfl⟩ := hl
  rw [List.mem_map] at hrl
  obtain ⟨item, hitem, heq⟩ := hrl
  simp only [Bool.false_eq_true, if_false, CleanupEvent.delete.injEq] at heq
  obtain ⟨heq1, heq2⟩ := heq
  have hord : t' ∈ cleanupOrder := ht'
  rw [planForSession_group session t' hord, Option.getD_some] at hitem
  rw [List.mem_filter] at hitem
  obtain ⟨hrs, hty⟩ := hitem
  have htyeq : item.resourceType = t' := beq_iff_eq.mp hty
  constructor
  · rw [← heq2, htyeq]
    exact hord
  · rw [← heq2]
    exact hrs

/-! Claim C10. -/

/-- C10: a session resource whose type is outside the fixed deletion order is
never the target of a deletion attempt — `executeCleanup` iterates only
`plan.order`, where unknown types are absent — yet the session still ends
with status `cleaned` (live) or `active` (dry run), and `cleanedResources`
counts only the in-order resources, so it stays strictly below the session's
total count: the unknown-type resource is silently left behind. -/
theorem unknown_type_left_behind (m : ContentLifecycleManager) (sid : String)
    (session : DemoSession) (r : ContentRecord)
    (h : lookupA sid m.sessions = some session)
    (hr : r ∈ session.resources) (hu : r.resourceType ∉ cleanupOrder)
    (htot : session.totalResources = session.resources.length) :
    ∃ mLive evLive mDry evDry,
      executeCleanup m sid false = Except.ok (mLive, evLive)
      ∧ executeCleanup m sid true = Except.ok (mDry, evDry)
      ∧ (∀ t r', CleanupEvent.delete t r' ∈ evLive →
          r'.resourceType ∈ cleanupOrder)
      ∧ (∀ t, CleanupEvent.delete t r ∉ evLive)
      ∧ lookupA sid mLive.sessions = some { session with
          status := SessionStatus.cleaned,
          cleanedResources := (session.resources.filter
            (fun x => decide (x.resourceType ∈ cleanupOrder))).length }
      ∧ lookupA sid mDry.sessions = some { session with
          status := SessionStatus.active,
          cleanedResources := (session.resources.filter
            (fun x => decide (x.resourceType ∈ cleanupOrder))).length }
      ∧ (session.resources.filter
          (fun x => decide (x.resourceType ∈ cleanupOrder))).length <
          session.totalResources := by
  unfold executeCleanup
  rw [h]
  refine ⟨_, _, _, _, rfl, rfl, ?_, ?_, ?_, ?_, ?_⟩
  · intro t r' hmem
    rcases List.mem_cons.mp hmem with heq | hmem'
    · cases heq
    · rcases List.mem_append.mp hmem' with hact | hsave
      · exact (delete_mem_cleanupActions session t r' hact).1
      · rcases List.mem_singleton.mp hsave with heq
        cases heq
  · intro t hmem
    rcases List.mem_cons.mp hmem with heq | hmem'
    · cases heq
    · rcases List.mem_append.mp hmem' with hact | hsave
      · exact hu (delete_mem_cleanupActions session t r hact).1
      · rcases List.mem_singleton.mp hsave with heq
        cases heq
  · rw [lookupA_setEntry_self, cleanupActions_length]
    rfl
  · rw [lookupA_setEntry_self, cleanupActions_length]
    rfl
  · rw [htot]
    exact length_filter_lt _ session.resources r hr (by simp [hu])

/-- Witness for C10 at a session holding one in-order `file` resource and one
resource of the unknown type `webhook`. -/
theorem unknown_type_left_behind_witness :
    ∃ mLive evLive mDry evDry,
      executeCleanup
        ⟨[("s", ⟨"s", "t", 0, SessionStatus.active, 2, 0,
          [⟨"file-f1-2", "t", "s", "file", "f1", none, "e2", "F", 2, []⟩,
           ⟨"webhook-w1-3", "t", "s", "webhook", "w1", none, "e4", "W", 3,
            []⟩]⟩)], []⟩ "s" false = Except.ok (mLive, evLive)
      ∧ executeCleanup
        ⟨[("s", ⟨"s", "t", 0, SessionStatus.active, 2, 0,
          [⟨"file-f1-2", "t", "s", "file", "f1", none, "e2", "F", 2, []⟩,
           ⟨"webhook-w1-3", "t", "s", "webhook", "w1", none, "e4", "W", 3,
            []⟩]⟩)], []⟩ "s" true = Except.ok (mDry, evDry)
      ∧ (∀ t r', CleanupEvent.delete t r' ∈ evLive →
          r'.resourceType ∈ cleanupOrder)
      ∧ (∀ t, CleanupEvent.delete t
          ⟨"webhook-w1-3", "t", "s", "webhook", "w1", none, "e4", "W", 3, []⟩
          ∉ evLive)
      ∧ lookupA "s" mLive.sessions = some
          { (⟨"s", "t", 0, SessionStatus.active, 2, 0,
            [⟨"file-f1-2", "t", "s", "file", "f1", none, "e2", "F", 2, []⟩,
             ⟨"webhook-w1-3", "t", "s", "webhook", "w1", none, "e4", "W", 3,
              []⟩]⟩ : DemoSession) with
            status := SessionStatus.cleaned,
            cleanedResources :=
              (([⟨"file-f1-2", "t", "s", "file", "f1", none, "e2", "F", 2, []⟩,
                 ⟨"webhook-w1-3", "t", "s", "webhook", "w1", none, "e4", "W", 3,
                  []⟩] : List ContentRecord).filter
                (fun x => decide (x.resourceType ∈ cleanupOrder))).length }
      ∧ lookupA "s" mDry.sessions = some
          { (⟨"s", "t", 0, SessionStatus.active, 2, 0,
            [⟨"file-f1-2", "t", "s", "file", "f1", none, "e2", "F", 2, []⟩,
             ⟨"webhook-w1-3", "t", "s", "webhook", "w1", none, "e4", "W", 3,
              []⟩]⟩ : DemoSession) with
            status := SessionStatus.active,
            cleanedResources :=
              (([⟨"file-f1-2", "t", "s", "file", "f1", none, "e2", "F", 2, []⟩,
                 ⟨"webhook-w1-3", "t", "s", "webhook", "w1", none, "e4", "W", 3,
                  []⟩] : List ContentRecord).filter
                (fun x => decide (x.resourceType ∈ cleanupOrder))).length }
      ∧ (([⟨"file-f1-2", "t", "s", "file", "f1", none, "e2", "F", 2, []⟩,
           ⟨"webhook-w1-3", "t", "s", "webhook", "w1", none, "e4", "W", 3,
            []⟩] : List ContentRecord).filter
          (fun x => decide (x.resourceType ∈ cleanupOrder))).length < 2 :=
  unknown_type_left_behind
    ⟨[("s", ⟨"s", "t", 0, SessionStatus.active, 2, 0,
      [⟨"file-f1-2", "t", "s", "file", "f1", none, "e2", "F", 2, []⟩,
       ⟨"webhook-w1-3", "t", "s", "webhook", "w1", none, "e4", "W", 3,
        []⟩]⟩)], []⟩ "s"
    ⟨"s", "t", 0, SessionStatus.active, 2, 0,
      [⟨"file-f1-2", "t", "s", "file", "f1", none, "e2", "F", 2, []⟩,
       ⟨"webhook-w1-3", "t", "s", "webhook", "w1", none, "e4", "W", 3, []⟩]⟩
    ⟨"webhook-w1-3", "t", "s", "webhook", "w1", none, "e4", "W", 3, []⟩
    rfl (by simp) (by decide) rfl

/-! Injectivity of the decimal representation used inside record ids. -/

def digitVal (c : Char) : Nat := c.toNat - '0'.toNat

/-- Reads a most-significant-first digit list back into a number, starting
from accumulator `a`. -/
def decodeFrom (a : Nat) (l : List Char) : Nat :=
  l.foldl (fun a c => a * 10 + digitVal c) a

theorem digitVal_digitChar (d : Nat) (h : d < 10) :
    digitVal (Nat.digitChar d) = d := by
  interval_cases d <;> decide

theorem decodeFrom_cons (a : Nat) (c : Char) (l : List Char) :
    decodeFrom a (c :: l) = decodeFrom (a * 10 + digitVal c) l := rfl

theorem toDigitsCore_decode (fuel : Nat) :
    ∀ n acc, n < fuel →
      decodeFrom 0 (Nat.toDigitsCore 10 fuel n acc) = decodeFrom n acc := by
  induction fuel with
  | zero => intro n acc h; omega
  | succ fuel ih =>
    intro n acc h
    simp only [Nat.toDigitsCore]
    by_cases hz : n / 10 = 0
    · rw [if_pos hz, decodeFrom_cons,
        digitVal_digitChar (n % 10) (Nat.mod_lt n (by norm_num)),
        show 0 * 10 + n % 10 = n from by omega]
    · rw [if_neg hz, ih (n / 10) (Nat.digitChar (n % 10) :: acc) (by omega),
        decodeFrom_cons,
        digitVal_digitChar (n % 10) (Nat.mod_lt n (by norm_num)),
        show n / 10 * 10 + n % 10 = n from by omega]

theorem decode_toDigits (n : Nat) : decodeFrom 0 (Nat.toDigits 10 n) = n :=
  toDigitsCore_decode (n + 1) n [] (Nat.lt_succ_self n)

/-- The decimal string of a natural number determines it. -/
theorem natRepr_injective (m n : Nat) (h : Nat.repr m = Nat.repr n) : m = n := by
  have hd : Nat.toDigits 10 m = Nat.toDigits 10 n := congrArg String.data h
  calc m = decodeFrom 0 (Nat.toDigits 10 m) := (decode_toDigits m).symm
    _ = decodeFrom 0 (Nat.toDigits 10 n) := by rw [hd]
    _ = n := decode_toDigits n

theorem stringData_append (s t : String) : (s ++ t).data = s.data ++ t.data := by
  obtain ⟨a⟩ := s
  obtain ⟨b⟩ := t
  rfl

theorem string_append_left_cancel (s t u : String) (h : s ++ t = s ++ u) :
    t = u := by
  have hd := congrArg String.data h
  rw [stringData_append, stringData_append] at hd
  have := congrArg String.mk (List.append_cancel_left hd)
  exact this

/-! Claim C8. -/

/-- C8 counterexample: tracking the same `user`/`u1` resource twice at the
same millisecond instant (`Date.now() = 5` both times) appends two records
whose derived ids are both `"user-u1-5"` — the ids of the two appended
records do not differ, so id uniqueness within the session fails. -/
theorem duplicate_instant_id_collision_cex :
    (lookupA "s" (trackResource (trackResource
      ⟨[("s", ⟨"s", "t", 0, SessionStatus.active, 0, 0, []⟩)], []⟩
      "s" "user" "u1" "U" "e" none none 5).2
      "s" "user" "u1" "U" "e" none none 5).2.sessions).map
      (fun s => s.resources.map ContentRecord.id) =
      some ["user-u1-5", "user-u1-5"]
    ∧ ¬ (["user-u1-5", "user-u1-5"] : List String).Nodup := by
  constructor
  · rfl
  · decide

/-- C8 as amended: two records appended by `trackResource` for the same
`resourceType` and `resourceId` carry distinct ids whenever their creation
instants differ — the id embeds the decimal `Date.now()` value, which the
previous lemmas show is injective — but ids collide when the instants
coincide, as the counterexample shows. -/
theorem distinct_instants_distinct_ids (m : ContentLifecycleManager)
    (sid t rid dn1 dn2 ep1 ep2 : String) (pr1 pr2 : Option String)
    (md1 md2 : Option (List (String × String))) (n1 n2 : Nat)
    (session : DemoSession) (h : lookupA sid m.sessions = some session)
    (hne : n1 ≠ n2) :
    ∃ m1 session1,
      trackResource m sid t rid dn1 ep1 pr1 md1 n1 = (none, m1)
      ∧ lookupA sid m1.sessions = some session1
      ∧ session1.resources = session.resources ++
          [makeRecord session.tenantId sid t rid dn1 ep1 pr1 md1 n1]
      ∧ ∃ m2 session2,
        trackResource m1 sid t rid dn2 ep2 pr2 md2 n2 = (none, m2)
        ∧ lookupA sid m2.sessions = some session2
        ∧ session2.resources = session1.resources ++
            [makeRecord session1.tenantId sid t rid dn2 ep2 pr2 md2 n2]
        ∧ (makeRecord session.tenantId sid t rid dn1 ep1 pr1 md1 n1).id ≠
          (makeRecord session1.tenantId sid t rid dn2 ep2 pr2 md2 n2).id := by
  unfold trackResource
  rw [h]
  refine ⟨_, _, rfl, lookupA_setEntry_self _ _ _, rfl, ?_⟩
  rw [lookupA_setEntry_self]
  refine ⟨_, _, rfl, lookupA_setEntry_self _ _ _, rfl, ?_⟩
  show t ++ "-" ++ rid ++ "-" ++ Nat.repr n1 ≠
    t ++ "-" ++ rid ++ "-" ++ Nat.repr n2
  intro hid
  exact hne (natRepr_injective n1 n2
    (string_append_left_cancel (t ++ "-" ++ rid ++ "-") _ _ hid))

/-- Witness for C8's amended statement: instants 5 and 6 produce the distinct
ids `"user-u1-5"` and `"user-u1-6"`. -/
theorem distinct_instants_distinct_ids_witness :
    ∃ m1 session1,
      trackResource ⟨[("s", ⟨"s", "t", 0, SessionStatus.active, 0, 0, []⟩)], []⟩
        "s" "user" "u1" "U" "e" none none 5 = (none, m1)
      ∧ lookupA "s" m1.sessions = some session1
      ∧ session1.resources =
          ([] : List ContentRecord) ++
            [makeRecord "t" "s" "user" "u1" "U" "e" none none 5]
      ∧ ∃ m2 session2,
        trackResource m1 "s" "user" "u1" "U" "e" none none 6 = (none, m2)
        ∧ lookupA "s" m2.sessions = some session2
        ∧ session2.resources = session1.resources ++
            [makeRecord session1.tenantId "s" "user" "u1" "U" "e" none none 6]
        ∧ (makeRecord "t" "s" "user" "u1" "U" "e" none none 5).id ≠
          (makeRecord session1.tenantId "s" "user" "u1" "U" "e" none none
            6).id :=
  distinct_instants_distinct_ids
    ⟨[("s", ⟨"s", "t", 0, SessionStatus.active, 0, 0, []⟩)], []⟩
    "s" "user" "u1" "U" "U" "e" "e" none none none none 5 6
    ⟨"s", "t", 0, SessionStatus.active, 0, 0, []⟩ rfl (by decide)
